import Mathlib

/-!
Verification of the batch conversion orchestration core of audiobook-forge.

The definitions below are a shallow embedding of the Rust sources:
`src/core/retry.rs`, `src/core/processor.rs`, `src/core/batch.rs`,
`src/core/organizer.rs`, `src/models/book.rs`, `src/models/quality.rs`,
`src/models/result.rs`, `src/models/track.rs`.

Modelling conventions:
- machine integers (`u32`, `u8`, `usize`) become `Nat`;
- `f64` quantities (durations, backoff delays, multipliers) become `Rat`;
- `anyhow::Error` becomes its message `String` (the classifier only ever
  inspects the message text);
- fallible code returns `Except String`;
- filesystem paths become lists of components (`List String`), and the
  filesystem itself an existence predicate `Path -> Bool`;
- an async operation handed to the retry wrapper becomes a function from
  the attempt index to that attempt's outcome.
-/

namespace AudiobookForge

/-! ## Error classification (`src/core/retry.rs`, lines 120-155) -/

/-- `ErrorType` from `retry.rs`: transient errors are worth retrying,
permanent ones are not. -/
inductive ErrorType where
  | Transient
  | Permanent
deriving DecidableEq, Repr

/-- Substring test on lists of characters: `needle` occurs inside `hay`. -/
def listContainsSub (needle : List Char) : List Char → Bool
  | [] => needle.isPrefixOf []
  | c :: rest => needle.isPrefixOf (c :: rest) || listContainsSub needle rest

/-- `error_msg.contains(pat)` from Rust, on the character sequences of the
two strings. -/
def strContains (hay pat : String) : Bool :=
  listContainsSub pat.toList hay.toList

/-- Rust's `str::to_lowercase` (the messages, codec names and preset names
the program lowercases are ASCII). -/
def lowerStr (s : String) : String :=
  String.mk (s.toList.map Char.toLower)

/-- The transient-marker scan of `classify_error` (`retry.rs` lines 134-139):
the five substring checks performed first, on the lowercased message. -/
def hasTransientMarker (msg : String) : Bool :=
  let m := lowerStr msg
  strContains m "timeout"
    || strContains m "connection"
    || strContains m "temporarily unavailable"
    || strContains m "too many open files"
    || strContains m "resource temporarily unavailable"

/-- The permanent-marker scan of `classify_error` (`retry.rs` lines 144-149):
the five substring checks performed second, on the lowercased message. -/
def hasPermanentMarker (msg : String) : Bool :=
  let m := lowerStr msg
  strContains m "file not found"
    || strContains m "permission denied"
    || strContains m "invalid"
    || strContains m "unsupported"
    || strContains m "corrupted"

/-- `classify_error` (`retry.rs` lines 130-155): the transient markers are
tested first, then the permanent markers; anything unmatched defaults to
`Transient`. -/
def classifyError (msg : String) : ErrorType :=
  if hasTransientMarker msg then ErrorType.Transient
  else if hasPermanentMarker msg then ErrorType.Permanent
  else ErrorType.Transient

/-! ## Retry configuration and backoff (`src/core/retry.rs`, lines 7-73) -/

/-- `RetryConfig` from `retry.rs`. Durations and the multiplier are modelled
as rationals. -/
structure RetryConfig where
  maxRetries : Nat
  initialDelay : Rat
  maxDelay : Rat
  backoffMultiplier : Rat
deriving Repr

/-- `RetryConfig::calculate_delay` (`retry.rs` lines 57-73): attempt 0 gets
the initial delay; later attempts get the exponential backoff value, clamped
to `max_delay`. -/
def calculateDelay (c : RetryConfig) (attempt : Nat) : Rat :=
  if attempt = 0 then c.initialDelay
  else
    let delay := c.initialDelay * c.backoffMultiplier ^ attempt
    if delay > c.maxDelay then c.maxDelay else delay

/-! ## Smart retry (`src/core/retry.rs`, lines 158-202)

`smart_retry_async` loops `attempt` over `0..=max_retries`.  We model the
operation as a function from the attempt index to that attempt's outcome,
and record, alongside the final result, how many times the operation was
invoked and how many times the loop slept. -/

/-- Observable outcome of a `smart_retry_async` run: final result, number of
invocations of the operation, number of sleeps performed between attempts. -/
structure RetryOutcome (α : Type) where
  result : Except String α
  calls : Nat
  sleeps : Nat
deriving Repr

/-- The loop body of `smart_retry_async`: `attempt` is the current index and
`remaining` the number of attempts still allowed after this one (so
`remaining = max_retries - attempt`).  Success returns immediately; a
permanent failure returns immediately; a transient failure sleeps and
retries while `remaining > 0`, and otherwise propagates the last error. -/
def smartRetryGo {α : Type} (op : Nat → Except String α) :
    Nat → Nat → RetryOutcome α
  | attempt, remaining =>
    match op attempt with
    | .ok v => ⟨.ok v, 1, 0⟩
    | .error e =>
      if classifyError e = ErrorType.Permanent then ⟨.error e, 1, 0⟩
      else
        match remaining with
        | 0 => ⟨.error e, 1, 0⟩
        | r + 1 =>
          let rest := smartRetryGo op (attempt + 1) r
          ⟨rest.result, rest.calls + 1, rest.sleeps + 1⟩

/-- `smart_retry_async` (`retry.rs` lines 158-202): run the loop from
attempt 0 with `max_retries` further attempts allowed. -/
def smartRetryAsync {α : Type} (config : RetryConfig)
    (op : Nat → Except String α) : RetryOutcome α :=
  smartRetryGo op 0 config.maxRetries

/-! ## Quality profiles (`src/models/quality.rs`) -/

/-- `QualityProfile` from `quality.rs`: bitrate in kbps, sample rate in Hz,
channel count, codec name, duration in seconds. -/
structure QualityProfile where
  bitrate : Nat
  sampleRate : Nat
  channels : Nat
  codec : String
  duration : Rat
deriving Repr, DecidableEq

/-- `QualityProfile::is_compatible_for_concat` (`quality.rs` lines 76-81):
equal bitrate, sample rate and channels, and case-insensitively equal
codec. -/
def isCompatibleForConcat (a b : QualityProfile) : Bool :=
  a.bitrate == b.bitrate
    && a.sampleRate == b.sampleRate
    && a.channels == b.channels
    && lowerStr a.codec == lowerStr b.codec

/-- `QualityProfile::from_preset` (`quality.rs` lines 99-124): the three
named presets yield fixed AAC settings carrying over the source duration;
"source" and every unrecognized name yield `none`. -/
def fromPreset (preset : String) (source : QualityProfile) :
    Option QualityProfile :=
  if lowerStr preset == "low" then
    some ⟨64, 22050, 1, "aac", source.duration⟩
  else if lowerStr preset == "medium" then
    some ⟨96, 44100, 2, "aac", source.duration⟩
  else if lowerStr preset == "high" then
    some ⟨128, 48000, 2, "aac", source.duration⟩
  else
    none

/-- `QualityProfile::apply_preset` (`quality.rs` lines 127-131): apply the
preset override if given and recognized, else keep the profile. -/
def applyPreset (p : QualityProfile) (preset : Option String) :
    QualityProfile :=
  match preset.bind (fun s => fromPreset s p) with
  | some q => q
  | none => p

/-! ## Tracks and book folders (`src/models/track.rs`, `src/models/book.rs`) -/

/-- `Track` from `track.rs`, restricted to the fields the orchestration
core reads (the optional tag fields are irrelevant to the claims under
verification and are omitted). -/
structure Track where
  filePath : List String
  quality : QualityProfile
deriving Repr, DecidableEq

/-- `BookCase` from `book.rs`: the four folder classifications. -/
inductive BookCase where
  | A
  | B
  | C
  | D
deriving Repr, DecidableEq

/-- `BookFolder` from `book.rs`, restricted to the fields the orchestration
core reads (the Audible metadata fields are irrelevant to the claims under
verification and are omitted). -/
structure BookFolder where
  folderPath : List String
  name : String
  case : BookCase
  tracks : List Track
  mp3Files : List (List String)
  m4bFiles : List (List String)
  coverFile : Option (List String)
  cueFile : Option (List String)
deriving Repr

/-- `BookFolder::new` (`book.rs` lines 65-84): the display name is the last
path component (or "unknown"); everything else starts empty, with case D. -/
def BookFolder.new (folderPath : List String) : BookFolder :=
  { folderPath := folderPath
    name := (folderPath.getLast?).getD "unknown"
    case := BookCase.D
    tracks := []
    mp3Files := []
    m4bFiles := []
    coverFile := none
    cueFile := none }

/-- The pure classification underlying `BookFolder::classify` (`book.rs`
lines 87-100), as a function of the two bucket sizes (mp3 count, m4b
count). -/
def classifyCase (mp3Count m4bCount : Nat) : BookCase :=
  if m4bCount > 0 then BookCase.C
  else if mp3Count > 1 then BookCase.A
  else if mp3Count = 1 then BookCase.B
  else BookCase.D

/-- `BookFolder::classify` (`book.rs` lines 87-100): recompute the case
from the folder's buckets. -/
def BookFolder.classify (book : BookFolder) : BookFolder :=
  { book with case := classifyCase book.mp3Files.length book.m4bFiles.length }

/-- The codec test of `BookFolder::can_use_concat_copy` (`book.rs` lines
128-132): the lowercased codec names under which the analyzer reports the
mp3 format, which cannot be muxed verbatim into the m4b container. -/
def isMp3Codec (codec : String) : Bool :=
  lowerStr codec == "mp3" || lowerStr codec == "mp3float"

/-- `BookFolder::can_use_concat_copy` (`book.rs` lines 123-142): an empty
track list is ineligible; the mp3 codec on the first track forces a real
encode; otherwise every later track must be concat-compatible with the
first. -/
def canUseConcatCopy (book : BookFolder) : Bool :=
  match book.tracks with
  | [] => false
  | first :: rest =>
    if isMp3Codec first.quality.codec then false
    else rest.all (fun t => isCompatibleForConcat first.quality t.quality)

/-! ## Strategy selection (`src/core/processor.rs`, lines 102-236)

`Processor::process_book` chooses between four assembly paths; the chain of
conditions in lines 102, 114, 134 and 214 is captured as a selection
function over the book and the parallel-encoding flag. -/

/-- The four assembly strategies executed by `process_book`:
- `singleFile copy`: one `convert_single_file` call (copy mode iff the book
  is copy-eligible), no concatenation;
- `directConcatCopy`: one copy-mode `concat_audio_files` call;
- `parallelTranscode`: per-track encodes under a book-local semaphore, then
  one copy-mode concatenation of the intermediates;
- `serialTranscode`: one transcoding `concat_audio_files` call. -/
inductive Strategy where
  | singleFile (copy : Bool)
  | directConcatCopy
  | parallelTranscode
  | serialTranscode
deriving Repr, DecidableEq

/-- The branch structure of `process_book` (`processor.rs` lines 81 and
102-236): `use_copy` is computed once from the book, then the four branches
are tried in order. -/
def selectStrategy (book : BookFolder) (enableParallelEncoding : Bool) :
    Strategy :=
  let useCopy := canUseConcatCopy book
  if book.tracks.length == 1 then Strategy.singleFile useCopy
  else if useCopy then Strategy.directConcatCopy
  else if enableParallelEncoding && decide (book.tracks.length > 1) then
    Strategy.parallelTranscode
  else Strategy.serialTranscode

/-- `process_book` up to its strategy decision: a book with no tracks fails
before any strategy runs (`get_best_quality_profile` returns `None` and the
`"No tracks found"` context aborts, `processor.rs` lines 91-94); otherwise
the strategy above is executed. -/
def processBookPlan (book : BookFolder) (enableParallelEncoding : Bool) :
    Except String Strategy :=
  if book.tracks.isEmpty then Except.error "No tracks found"
  else Except.ok (selectStrategy book enableParallelEncoding)

/-- `selectStrategy` restated from the specification's words: a pure
function of (trackCount, copyModeEligible, parallelEncodingEnabled), first
matching rule winning — one track gives the single-file path (copy iff
eligible); eligibility with more than one track gives direct copy-mode
concatenation; otherwise parallel encoding when enabled; otherwise the
serial path. -/
def specStrategyOfTriple (trackCount : Nat)
    (copyModeEligible parallelEncodingEnabled : Bool) : Strategy :=
  if trackCount = 1 then Strategy.singleFile copyModeEligible
  else if copyModeEligible && decide (trackCount > 1) then
    Strategy.directConcatCopy
  else if parallelEncodingEnabled then Strategy.parallelTranscode
  else Strategy.serialTranscode

/-! ## Processing results (`src/models/result.rs`) -/

/-- `ProcessingResult` from `result.rs`. -/
structure ProcessingResult where
  bookName : String
  success : Bool
  outputPath : Option (List String)
  processingTime : Rat
  errorMessage : Option String
  outputSize : Option Nat
  usedCopyMode : Bool
deriving Repr, DecidableEq

/-- `ProcessingResult::new` (`result.rs`): an initially unsuccessful, empty
result for the named book. -/
def ProcessingResult.new (bookName : String) : ProcessingResult :=
  { bookName := bookName
    success := false
    outputPath := none
    processingTime := 0
    errorMessage := none
    outputSize := none
    usedCopyMode := false }

/-- `ProcessingResult::failure` (`result.rs`): mark as failed with the
message and elapsed time. -/
def ProcessingResult.failure (r : ProcessingResult) (errorMessage : String)
    (processingTime : Rat) : ProcessingResult :=
  { r with
    success := false
    errorMessage := some errorMessage
    processingTime := processingTime }

/-! ## Batch scheduling (`src/core/batch.rs`, lines 59-155)

`BatchProcessor::process_batch` spawns one task per book; each task wraps
the book's processing in `smart_retry_async` and converts a final error
into a `failure()` result (lines 109-125), then sends the result through a
channel.  We model a book's processing as a per-attempt outcome oracle and
the nondeterministic completion order of the tasks as an explicit
permutation of the book indices. -/

/-- The body of one spawned batch task (`batch.rs` lines 109-125): the
final outcome of `smart_retry_async` if it succeeded, otherwise the
`failure()` result carrying the `"All retries failed: "` message. -/
def bookTerminalResult (cfg : RetryConfig)
    (op : Nat → Except String ProcessingResult) (book : BookFolder) :
    ProcessingResult :=
  match (smartRetryAsync cfg op).result with
  | .ok r => r
  | .error e =>
    (ProcessingResult.new book.name).failure ("All retries failed: " ++ e) 0

/-- `process_batch` (`batch.rs` lines 59-155): collect, in the order the
tasks complete (`order`), each book's terminal result.  `ops i` is book
`i`'s per-attempt outcome oracle. -/
def processBatch (cfg : RetryConfig)
    (ops : Nat → Nat → Except String ProcessingResult)
    (books : List BookFolder) (order : List Nat) : List ProcessingResult :=
  order.map (fun i =>
    bookTerminalResult cfg (ops i) (books.getD i (BookFolder.new [])))

/-! ## Organizer (`src/core/organizer.rs`) -/

/-- `OrganizeAction` from `organizer.rs`. -/
inductive OrganizeAction where
  | movedToConvert
  | movedToM4B
  | skipped
  | skippedInvalid
deriving Repr, DecidableEq

/-- `OrganizeResult` from `organizer.rs`. -/
structure OrganizeResult where
  bookName : String
  sourcePath : List String
  destinationPath : Option (List String)
  action : OrganizeAction
  success : Bool
  errorMessage : Option String
deriving Repr, DecidableEq

/-- `Organizer` from `organizer.rs`: destination roots are
`root/convert_folder` (cases A and B) and `root/m4b_folder` (case C). -/
structure Organizer where
  root : List String
  m4bFolder : String
  convertFolder : String
  dryRun : Bool
deriving Repr

/-- The suffixed candidate name tried by `resolve_naming_conflict`
(`organizer.rs` line 216): `base_i`. -/
def suffixedName (baseName : String) (i : Nat) : String :=
  baseName ++ "_" ++ toString i

/-- `Organizer::resolve_naming_conflict` (`organizer.rs` lines 203-230):
a free path is kept as is; otherwise the suffixes `_2` .. `_999` are tried
in order and the first free one wins; if every suffix is taken the
dedicated error is returned.  `fs` is the existence predicate of the
filesystem. -/
def resolveNamingConflict (fs : List String → Bool) (path : List String) :
    Except String (List String) :=
  if fs path = false then Except.ok path
  else
    match path.getLast? with
    | none => Except.error "Invalid path"
    | some baseName =>
      let parent := path.dropLast
      match (List.range' 2 998).find?
          (fun i => !fs (parent ++ [suffixedName baseName i])) with
      | some i => Except.ok (parent ++ [suffixedName baseName i])
      | none => Except.error "Could not resolve naming conflict"

/-- The case dispatch of `organize_book` (`organizer.rs` lines 89-109):
cases A and B target the convert folder, case C the m4b folder, case D
nothing. -/
def organizeTarget (org : Organizer) (c : BookCase) :
    Option (String × OrganizeAction) :=
  match c with
  | BookCase.A | BookCase.B =>
    some (org.convertFolder, OrganizeAction.movedToConvert)
  | BookCase.C => some (org.m4bFolder, OrganizeAction.movedToM4B)
  | BookCase.D => none

/-- `Organizer::organize_book` (`organizer.rs` lines 84-176).  The second
component of the returned pair records the filesystem moves performed
(empty for the no-op cases and in dry-run mode). -/
def organizeBook (org : Organizer) (fs : List String → Bool)
    (book : BookFolder) :
    Except String (OrganizeResult × List (List String × List String)) :=
  match organizeTarget org book.case with
  | none =>
    Except.ok
      ({ bookName := book.name
         sourcePath := book.folderPath
         destinationPath := none
         action := OrganizeAction.skippedInvalid
         success := true
         errorMessage := none }, [])
  | some (targetFolderName, action) =>
    let targetFolder := org.root ++ [targetFolderName]
    if book.folderPath.dropLast = targetFolder then
      Except.ok
        ({ bookName := book.name
           sourcePath := book.folderPath
           destinationPath := none
           action := OrganizeAction.skipped
           success := true
           errorMessage := none }, [])
    else
      match book.folderPath.getLast? with
      | none => Except.error "Invalid source path"
      | some fileName =>
        let destinationPath := targetFolder ++ [fileName]
        match resolveNamingConflict fs destinationPath with
        | Except.error e => Except.error e
        | Except.ok finalDestination =>
          Except.ok
            ({ bookName := book.name
               sourcePath := book.folderPath
               destinationPath := some finalDestination
               action := action
               success := true
               errorMessage := none },
             if org.dryRun then [] else [(book.folderPath, finalDestination)])

/-! ## Per-book parallel encoding (`src/core/processor.rs`, lines 134-213)

The PARALLEL branch spawns one encode task per track, each of which must
acquire a permit from a semaphore of size
`effective_limit = max_concurrent_files.min(tracks.len())` before running
(lines 136-181); the main task then awaits every encode task in order
(lines 185-195) and only afterwards runs the copy-mode concatenation
(lines 199-213).  This is modelled as a transition system: a task is
either not started, running (holding a permit), or finished; the main
task's join loop is the `joined` counter, and the concatenation may start
only once every task has been joined. -/

/-- `effective_limit` (`processor.rs` line 136). -/
def effectiveLimit (maxConcurrentFiles trackCount : Nat) : Nat :=
  Nat.min maxConcurrentFiles trackCount

/-- State of the PARALLEL branch: counts of encode tasks not yet started,
currently running (holding a semaphore permit), and finished; the number of
tasks the main task has awaited; and whether the final concatenation has
started. -/
structure ParState where
  notStarted : Nat
  running : Nat
  joined : Nat
  finished : Nat
  concatStarted : Bool
deriving Repr, DecidableEq

/-- Initial state of the PARALLEL branch: all `total` encode tasks spawned
but not yet started, nothing joined, concatenation not started. -/
def ParState.init (total : Nat) : ParState :=
  { notStarted := total
    running := 0
    joined := 0
    finished := 0
    concatStarted := false }

/-- Transitions of the PARALLEL branch.  `startTask` is the semaphore
acquire: it requires a free permit (`running < limit`).  `finishTask`
releases the permit.  `joinTask` is one iteration of the main task's await
loop; it requires an as-yet-unjoined finished task.  `startConcat` is the
main task reaching the copy-mode concatenation, after its join loop has
awaited all `total` tasks. -/
inductive ParStep (limit total : Nat) : ParState → ParState → Prop
  | startTask (ns r j f c) : r < limit →
      ParStep limit total ⟨ns + 1, r, j, f, c⟩ ⟨ns, r + 1, j, f, c⟩
  | finishTask (ns r j f c) :
      ParStep limit total ⟨ns, r + 1, j, f, c⟩ ⟨ns, r, j, f + 1, c⟩
  | joinTask (ns r j f c) : j < f →
      ParStep limit total ⟨ns, r, j, f, c⟩ ⟨ns, r, j + 1, f, c⟩
  | startConcat (ns r j f) : j = total →
      ParStep limit total ⟨ns, r, j, f, false⟩ ⟨ns, r, j, f, true⟩

/-- The states of the PARALLEL branch reachable from the initial state. -/
def ParReachable (limit total : Nat) (s : ParState) : Prop :=
  Relation.ReflTransGen (ParStep limit total) (ParState.init total) s

/-! ## Helper lemmas -/

/-- Concat compatibility spelled out as four equalities. -/
theorem isCompatibleForConcat_iff (a b : QualityProfile) :
    isCompatibleForConcat a b = true ↔
      a.bitrate = b.bitrate ∧ a.sampleRate = b.sampleRate ∧
      a.channels = b.channels ∧ lowerStr a.codec = lowerStr b.codec := by
  simp [isCompatibleForConcat, Bool.and_eq_true, and_assoc]

/-- Two profiles both compatible with a common one are compatible with
each other. -/
theorem isCompatibleForConcat_of_common (c a b : QualityProfile)
    (h1 : isCompatibleForConcat c a = true)
    (h2 : isCompatibleForConcat c b = true) :
    isCompatibleForConcat a b = true := by
  rw [isCompatibleForConcat_iff] at h1 h2 ⊢
  obtain ⟨e1, e2, e3, e4⟩ := h1
  obtain ⟨f1, f2, f3, f4⟩ := h2
  exact ⟨e1.symm.trans f1, e2.symm.trans f2, e3.symm.trans f3,
    e4.symm.trans f4⟩

/-- The mp3-codec test only depends on the lowercased codec name. -/
theorem isMp3Codec_congr (a b : String) (h : lowerStr a = lowerStr b) :
    isMp3Codec a = isMp3Codec b := by
  unfold isMp3Codec
  rw [h]

/-! ## Claim C7 -/

/-- Claim C7: folder classification is a pure function of the two bucket
sizes; any finished-output file forces case C, otherwise more than one
source forces case A, exactly one source case B, and nothing case D — the
four cases are mutually exclusive and exhaustive. -/
theorem classify_case_of_bucket_sizes (sourceCount outputCount : Nat) :
    (classifyCase sourceCount outputCount = BookCase.C ↔ 1 ≤ outputCount) ∧
    (classifyCase sourceCount outputCount = BookCase.A ↔
      outputCount = 0 ∧ 1 < sourceCount) ∧
    (classifyCase sourceCount outputCount = BookCase.B ↔
      outputCount = 0 ∧ sourceCount = 1) ∧
    (classifyCase sourceCount outputCount = BookCase.D ↔
      outputCount = 0 ∧ sourceCount = 0) := by
  unfold classifyCase
  by_cases h1 : outputCount > 0 <;> by_cases h2 : sourceCount > 1 <;>
    by_cases h3 : sourceCount = 1 <;> simp [h1, h2, h3] <;> omega

/-- Witness for C7: two sources and no finished output classify as
case A. -/
theorem classify_case_of_bucket_sizes_witness :
    classifyCase 2 0 = BookCase.A :=
  ((classify_case_of_bucket_sizes 2 0).2.1).mpr ⟨rfl, by omega⟩

/-! ## Claim C1 -/

/-- Counterexample to claim C1: the message "invalid connection" contains
the permanent marker "invalid", yet `classify_error` returns Transient,
because the transient-marker checks run first and "connection" matches. -/
theorem classify_error_permanent_first_counterexample :
    hasPermanentMarker "invalid connection" = true ∧
    hasTransientMarker "invalid connection" = true ∧
    classifyError "invalid connection" = ErrorType.Transient := by
  refine ⟨by decide, by decide, by decide⟩

/-- Claim C1 as amended: the classifier performs the transient-marker
checks before the permanent ones, so a message containing a transient
marker is Transient even when a permanent marker is also present; a
message containing a permanent marker and no transient marker is
Permanent; a message matching no marker at all is Transient. -/
theorem classify_error_ordered_checks (msg : String) :
    (hasTransientMarker msg = true →
      classifyError msg = ErrorType.Transient) ∧
    (hasTransientMarker msg = false → hasPermanentMarker msg = true →
      classifyError msg = ErrorType.Permanent) ∧
    (hasTransientMarker msg = false → hasPermanentMarker msg = false →
      classifyError msg = ErrorType.Transient) := by
  refine ⟨fun h => ?_, fun h1 h2 => ?_, fun h1 h2 => ?_⟩ <;>
    simp [classifyError, *]

/-- Witness for the amended C1: "file not found" matches no transient
marker, matches a permanent marker, and is classified Permanent;
"some random error" matches nothing and is classified Transient. -/
theorem classify_error_ordered_checks_witness :
    classifyError "file not found" = ErrorType.Permanent ∧
    classifyError "some random error" = ErrorType.Transient :=
  ⟨(classify_error_ordered_checks "file not found").2.1
      (by decide) (by decide),
   (classify_error_ordered_checks "some random error").2.2
      (by decide) (by decide)⟩

/-! ## Claim C6 -/

/-- Counterexample to claim C6: with backoff multiplier 1/2 the delay
sequence strictly decreases from attempt 0 to attempt 1, so it is not
non-decreasing for every RetryConfig. -/
theorem backoff_delay_not_monotone_counterexample :
    calculateDelay ⟨2, 1, 30, (1 : Rat) / 2⟩ 1 <
      calculateDelay ⟨2, 1, 30, (1 : Rat) / 2⟩ 0 := by
  norm_num [calculateDelay]

/-- Claim C6 as amended: delay(0) = initialDelay and, for k ≥ 1,
delay(k) = min(maxDelay, initialDelay·backoffMultiplier^k), for every
config; the sequence is non-decreasing in k provided the delays are
nonnegative with initialDelay ≤ maxDelay and the multiplier is at least 1
(as in every config the program constructs). -/
theorem backoff_delay_formula (c : RetryConfig) :
    calculateDelay c 0 = c.initialDelay ∧
    (∀ k, 1 ≤ k → calculateDelay c k =
      min c.maxDelay (c.initialDelay * c.backoffMultiplier ^ k)) ∧
    (0 ≤ c.initialDelay → c.initialDelay ≤ c.maxDelay →
      1 ≤ c.backoffMultiplier →
      ∀ k, calculateDelay c k ≤ calculateDelay c (k + 1)) := by
  have hfor : ∀ k, 1 ≤ k → calculateDelay c k =
      min c.maxDelay (c.initialDelay * c.backoffMultiplier ^ k) := by
    intro k hk
    unfold calculateDelay
    rw [if_neg (by omega)]
    rcases le_or_lt (c.initialDelay * c.backoffMultiplier ^ k) c.maxDelay
      with h | h
    · rw [if_neg (not_lt.mpr h), min_eq_right h]
    · rw [if_pos h, min_eq_left h.le]
  refine ⟨by simp [calculateDelay], hfor, fun hI hIM hm k => ?_⟩
  have hpow : ∀ n m : Nat, n ≤ m →
      c.initialDelay * c.backoffMultiplier ^ n ≤
        c.initialDelay * c.backoffMultiplier ^ m := by
    intro n m hnm
    exact mul_le_mul_of_nonneg_left (pow_le_pow_right₀ hm hnm) hI
  cases k with
  | zero =>
    rw [hfor 1 le_rfl]
    have h1 : calculateDelay c 0 = c.initialDelay := by simp [calculateDelay]
    rw [h1]
    refine le_min hIM ?_
    calc c.initialDelay = c.initialDelay * c.backoffMultiplier ^ 0 := by ring
    _ ≤ c.initialDelay * c.backoffMultiplier ^ 1 := hpow 0 1 (by omega)
  | succ n =>
    rw [hfor (n + 1) (by omega), hfor (n + 2) (by omega)]
    exact min_le_min le_rfl (hpow (n + 1) (n + 2) (by omega))

/-- Witness for the amended C6: the default config (maxRetries 2, initial
delay 1s, max delay 30s, multiplier 2) satisfies the side conditions, its
delay at attempt 3 is min(30, 2³) = 8, and its delays are non-decreasing
from attempt 1 to attempt 2. -/
theorem backoff_delay_formula_witness :
    calculateDelay ⟨2, 1, 30, 2⟩ 0 = 1 ∧
    calculateDelay ⟨2, 1, 30, 2⟩ 3 = min 30 (1 * 2 ^ 3) ∧
    calculateDelay ⟨2, 1, 30, 2⟩ 1 ≤ calculateDelay ⟨2, 1, 30, 2⟩ 2 :=
  ⟨(backoff_delay_formula ⟨2, 1, 30, 2⟩).1,
   (backoff_delay_formula ⟨2, 1, 30, 2⟩).2.1 3 (by norm_num),
   (backoff_delay_formula ⟨2, 1, 30, 2⟩).2.2 (by norm_num) (by norm_num)
     (by norm_num) 1⟩

/-! ## Claim C10 -/

/-- Claim C10: applying a quality preset never changes the duration; the
three named presets replace only bitrate, sample rate, channels and codec
while carrying over the source duration; every other name (including
"source") and the absence of an override leave the whole profile
unchanged. -/
theorem apply_preset_preserves_duration (p : QualityProfile)
    (preset : Option String) :
    (applyPreset p preset).duration = p.duration ∧
    applyPreset p none = p ∧
    (∀ s : String, lowerStr s ≠ "low" → lowerStr s ≠ "medium" →
      lowerStr s ≠ "high" → applyPreset p (some s) = p) ∧
    (∀ s : String, lowerStr s = "low" →
      applyPreset p (some s) = ⟨64, 22050, 1, "aac", p.duration⟩) ∧
    (∀ s : String, lowerStr s = "medium" →
      applyPreset p (some s) = ⟨96, 44100, 2, "aac", p.duration⟩) ∧
    (∀ s : String, lowerStr s = "high" →
      applyPreset p (some s) = ⟨128, 48000, 2, "aac", p.duration⟩) := by
  have hsome : ∀ s : String, applyPreset p (some s) =
      if lowerStr s == "low" then ⟨64, 22050, 1, "aac", p.duration⟩
      else if lowerStr s == "medium" then ⟨96, 44100, 2, "aac", p.duration⟩
      else if lowerStr s == "high" then ⟨128, 48000, 2, "aac", p.duration⟩
      else p := by
    intro s
    simp only [applyPreset, Option.some_bind, fromPreset]
    split_ifs <;> rfl
  refine ⟨?_, rfl, ?_, ?_, ?_, ?_⟩
  · cases preset with
    | none => rfl
    | some s =>
      rw [hsome s]
      split_ifs <;> rfl
  · intro s h1 h2 h3
    rw [hsome s]
    simp [h1, h2, h3]
  · intro s h
    rw [hsome s]
    simp [h]
  · intro s h
    rw [hsome s]
    simp [h]
  · intro s h
    rw [hsome s]
    simp [h]

/-- Witness for C10: the "HIGH" preset keeps the duration of a concrete
96kbps mp3 profile, and the unrecognized "source" name is the identity. -/
theorem apply_preset_preserves_duration_witness :
    applyPreset ⟨96, 44100, 2, "mp3", 1800⟩ (some "HIGH") =
      ⟨128, 48000, 2, "aac", 1800⟩ ∧
    applyPreset ⟨96, 44100, 2, "mp3", 1800⟩ (some "source") =
      ⟨96, 44100, 2, "mp3", 1800⟩ :=
  ⟨(apply_preset_preserves_duration ⟨96, 44100, 2, "mp3", 1800⟩
      (some "HIGH")).2.2.2.2.2 "HIGH" (by decide),
   (apply_preset_preserves_duration ⟨96, 44100, 2, "mp3", 1800⟩
      (some "source")).2.2.1 "source" (by decide) (by decide) (by decide)⟩

/-! ## Claim C3 -/

/-- Claim C3: for every book reaching strategy selection (a book with no
tracks fails with "No tracks found" before any strategy runs), the chosen
assembly strategy is the pure function of (trackCount, copyModeEligible,
parallelEncodingEnabled) given by the specification's first-match rules. -/
theorem strategy_selection_pure (book : BookFolder)
    (enableParallelEncoding : Bool) (h : book.tracks ≠ []) :
    processBookPlan book enableParallelEncoding =
      Except.ok (specStrategyOfTriple book.tracks.length
        (canUseConcatCopy book) enableParallelEncoding) := by
  have hempty : book.tracks.isEmpty = false := by
    cases htr : book.tracks with
    | nil => exact absurd htr h
    | cons a l => rfl
  unfold processBookPlan
  rw [hempty]
  simp only [Bool.false_eq_true, if_false]
  unfold selectStrategy specStrategyOfTriple
  have hlen : book.tracks.length ≠ 0 := by
    simpa [List.length_eq_zero] using h
  by_cases h1 : book.tracks.length = 1
  · simp [h1]
  · have h2 : book.tracks.length > 1 := by omega
    simp [h1, h2]

/-- Witness for C3: a two-track book of identical aac profiles, with
parallel encoding enabled, is planned as the spec's pure selection function
dictates (direct copy-mode concatenation). -/
theorem strategy_selection_pure_witness :
    processBookPlan
      { folderPath := ["root", "Book"], name := "Book", case := BookCase.A
        tracks :=
          [⟨["root", "Book", "01.m4a"], ⟨128, 44100, 2, "aac", 600⟩⟩,
           ⟨["root", "Book", "02.m4a"], ⟨128, 44100, 2, "aac", 700⟩⟩]
        mp3Files := [], m4bFiles := [], coverFile := none, cueFile := none }
      true = Except.ok Strategy.directConcatCopy := by
  have h := strategy_selection_pure
    { folderPath := ["root", "Book"], name := "Book", case := BookCase.A
      tracks :=
        [⟨["root", "Book", "01.m4a"], ⟨128, 44100, 2, "aac", 600⟩⟩,
         ⟨["root", "Book", "02.m4a"], ⟨128, 44100, 2, "aac", 700⟩⟩]
      mp3Files := [], m4bFiles := [], coverFile := none, cueFile := none }
    true (by simp)
  rw [h]
  rfl

/-! ## Claim C4 -/

/-- Claim C4: for every book with a non-empty track list, copy-mode
eligibility holds iff every pair of tracks is concat-compatible and the
tracks' codec is not the mp3 format (whose codec-name spellings in the
analyzer's output are "mp3" and "mp3float"), which cannot be muxed
verbatim into the m4b container — including for a single-track book. -/
theorem concat_copy_iff (book : BookFolder) (h : book.tracks ≠ []) :
    canUseConcatCopy book = true ↔
      (List.Pairwise
          (fun a b => isCompatibleForConcat a.quality b.quality = true)
          book.tracks ∧
        ∀ t ∈ book.tracks, isMp3Codec t.quality.codec = false) := by
  cases htr : book.tracks with
  | nil => exact absurd htr h
  | cons first rest =>
    unfold canUseConcatCopy
    rw [htr]
    by_cases hm : isMp3Codec first.quality.codec
    · simp only [hm, if_true]
      constructor
      · intro hfalse
        exact absurd hfalse (by simp)
      · rintro ⟨-, hall⟩
        have := hall first (by simp)
        rw [hm] at this
        exact absurd this (by simp)
    · simp only [hm, if_false, Bool.false_eq_true]
      rw [List.all_eq_true]
      constructor
      · intro hall
        have hcomp : ∀ t ∈ rest, isCompatibleForConcat first.quality
            t.quality = true := fun t ht => hall t ht
        refine ⟨List.pairwise_cons.mpr ⟨hcomp, ?_⟩, ?_⟩
        · refine List.pairwise_of_forall_mem_list ?_
          intro a ha b hb
          exact isCompatibleForConcat_of_common first.quality a.quality
            b.quality (hcomp a ha) (hcomp b hb)
        · intro t ht
          rcases List.mem_cons.mp ht with rfl | ht
          · exact Bool.not_eq_true _ ▸ (by simpa using hm)
          · have hc := hcomp t ht
            rw [isCompatibleForConcat_iff] at hc
            rw [← isMp3Codec_congr first.quality.codec t.quality.codec
              hc.2.2.2]
            simpa using hm
      · rintro ⟨hpair, -⟩
        intro t ht
        exact (List.pairwise_cons.mp hpair).1 t ht

/-- Witness for C4: a two-track aac book is copy-eligible. -/
theorem concat_copy_iff_witness :
    canUseConcatCopy
      { folderPath := ["root", "Book"], name := "Book", case := BookCase.A
        tracks :=
          [⟨["root", "Book", "01.m4a"], ⟨128, 44100, 2, "aac", 600⟩⟩,
           ⟨["root", "Book", "02.m4a"], ⟨128, 44100, 2, "AAC", 700⟩⟩]
        mp3Files := [], m4bFiles := [], coverFile := none, cueFile := none }
      = true :=
  (concat_copy_iff
    { folderPath := ["root", "Book"], name := "Book", case := BookCase.A
      tracks :=
        [⟨["root", "Book", "01.m4a"], ⟨128, 44100, 2, "aac", 600⟩⟩,
         ⟨["root", "Book", "02.m4a"], ⟨128, 44100, 2, "AAC", 700⟩⟩]
      mp3Files := [], m4bFiles := [], coverFile := none, cueFile := none }
    (by simp)).mpr ⟨by decide, by decide⟩

/-! ## Claim C2 -/

/-- Step equation: a successful attempt returns at once. -/
theorem smartRetryGo_ok {α : Type} (op : Nat → Except String α)
    (attempt remaining : Nat) (v : α) (h : op attempt = Except.ok v) :
    smartRetryGo op attempt remaining = ⟨Except.ok v, 1, 0⟩ := by
  unfold smartRetryGo
  rw [h]

/-- Step equation: a permanently-failing attempt aborts at once. -/
theorem smartRetryGo_perm_step {α : Type} (op : Nat → Except String α)
    (attempt remaining : Nat) (e : String) (h : op attempt = Except.error e)
    (hc : classifyError e = ErrorType.Permanent) :
    smartRetryGo op attempt remaining = ⟨Except.error e, 1, 0⟩ := by
  unfold smartRetryGo
  rw [h]
  dsimp only
  rw [if_pos hc]

/-- Step equation: a transiently-failing attempt with no retries left
propagates the error. -/
theorem smartRetryGo_stop {α : Type} (op : Nat → Except String α)
    (attempt : Nat) (e : String) (h : op attempt = Except.error e)
    (hc : classifyError e ≠ ErrorType.Permanent) :
    smartRetryGo op attempt 0 = ⟨Except.error e, 1, 0⟩ := by
  unfold smartRetryGo
  rw [h]
  dsimp only
  rw [if_neg hc]

/-- Step equation: a transiently-failing attempt with retries left sleeps
and recurses. -/
theorem smartRetryGo_cont {α : Type} (op : Nat → Except String α)
    (attempt r : Nat) (e : String) (h : op attempt = Except.error e)
    (hc : classifyError e ≠ ErrorType.Permanent) :
    smartRetryGo op attempt (r + 1) =
      ⟨(smartRetryGo op (attempt + 1) r).result,
       (smartRetryGo op (attempt + 1) r).calls + 1,
       (smartRetryGo op (attempt + 1) r).sleeps + 1⟩ := by
  conv_lhs => unfold smartRetryGo
  rw [h]
  dsimp only
  rw [if_neg hc]

/-- The retry loop never invokes the operation more than `remaining + 1`
times. -/
theorem smartRetryGo_calls_le {α : Type} (op : Nat → Except String α) :
    ∀ (remaining attempt : Nat),
      (smartRetryGo op attempt remaining).calls ≤ remaining + 1 := by
  intro remaining
  induction remaining with
  | zero =>
    intro attempt
    rcases hop : op attempt with e | v
    · by_cases hc : classifyError e = ErrorType.Permanent
      · rw [smartRetryGo_perm_step op attempt 0 e hop hc]
      · rw [smartRetryGo_stop op attempt e hop hc]
    · rw [smartRetryGo_ok op attempt 0 v hop]
  | succ r ih =>
    intro attempt
    rcases hop : op attempt with e | v
    · by_cases hc : classifyError e = ErrorType.Permanent
      · rw [smartRetryGo_perm_step op attempt (r + 1) e hop hc]
        dsimp only
        omega
      · rw [smartRetryGo_cont op attempt r e hop hc]
        have := ih (attempt + 1)
        dsimp only
        omega
    · rw [smartRetryGo_ok op attempt (r + 1) v hop]
      dsimp only
      omega

/-- If the first `k` attempts fail transiently and attempt `k` succeeds
(with `k` within budget), the loop returns the success after exactly
`k + 1` invocations and `k` sleeps. -/
theorem smartRetryGo_success {α : Type} (op : Nat → Except String α) :
    ∀ (k remaining attempt : Nat) (v : α), k ≤ remaining →
      (∀ i, i < k → ∃ e, op (attempt + i) = Except.error e ∧
        classifyError e = ErrorType.Transient) →
      op (attempt + k) = Except.ok v →
      smartRetryGo op attempt remaining = ⟨Except.ok v, k + 1, k⟩ := by
  intro k
  induction k with
  | zero =>
    intro remaining attempt v _ _ hok
    rw [Nat.add_zero] at hok
    exact smartRetryGo_ok op attempt remaining v hok
  | succ n ih =>
    intro remaining attempt v hk hfail hok
    obtain ⟨e, he, het⟩ := hfail 0 (by omega)
    rw [Nat.add_zero] at he
    have hne : classifyError e ≠ ErrorType.Permanent := by
      rw [het]
      exact fun h => ErrorType.noConfusion h
    obtain ⟨r, rfl⟩ : ∃ r, remaining = r + 1 := ⟨remaining - 1, by omega⟩
    rw [smartRetryGo_cont op attempt r e he hne]
    have hrec := ih r (attempt + 1) v (by omega)
      (fun i hi => by
        have h := hfail (i + 1) (by omega)
        rwa [show attempt + (i + 1) = attempt + 1 + i by omega] at h)
      (by rwa [show attempt + (n + 1) = attempt + 1 + n by omega] at hok)
    rw [hrec]

/-- If the first `k` attempts fail transiently and attempt `k` fails with
a permanent error (with `k` within budget), the loop propagates that error
immediately: exactly `k + 1` invocations and `k` sleeps, none after the
permanent failure. -/
theorem smartRetryGo_permanent {α : Type} (op : Nat → Except String α) :
    ∀ (k remaining attempt : Nat) (e : String), k ≤ remaining →
      (∀ i, i < k → ∃ e2, op (attempt + i) = Except.error e2 ∧
        classifyError e2 = ErrorType.Transient) →
      op (attempt + k) = Except.error e →
      classifyError e = ErrorType.Permanent →
      smartRetryGo op attempt remaining = ⟨Except.error e, k + 1, k⟩ := by
  intro k
  induction k with
  | zero =>
    intro remaining attempt e _ _ herr hc
    rw [Nat.add_zero] at herr
    exact smartRetryGo_perm_step op attempt remaining e herr hc
  | succ n ih =>
    intro remaining attempt e hk hfail herr hc
    obtain ⟨e0, he0, het0⟩ := hfail 0 (by omega)
    rw [Nat.add_zero] at he0
    have hne : classifyError e0 ≠ ErrorType.Permanent := by
      rw [het0]
      exact fun h => ErrorType.noConfusion h
    obtain ⟨r, rfl⟩ : ∃ r, remaining = r + 1 := ⟨remaining - 1, by omega⟩
    rw [smartRetryGo_cont op attempt r e0 he0 hne]
    have hrec := ih r (attempt + 1) e (by omega)
      (fun i hi => by
        have h := hfail (i + 1) (by omega)
        rwa [show attempt + (i + 1) = attempt + 1 + i by omega] at h)
      (by rwa [show attempt + (n + 1) = attempt + 1 + n by omega] at herr)
      hc
    rw [hrec]

/-- If every attempt in the budget fails transiently, the loop invokes the
operation on every attempt and propagates the last error. -/
theorem smartRetryGo_exhaust {α : Type} (op : Nat → Except String α) :
    ∀ (remaining attempt : Nat) (e : String),
      (∀ i, i < remaining → ∃ e2, op (attempt + i) = Except.error e2 ∧
        classifyError e2 = ErrorType.Transient) →
      op (attempt + remaining) = Except.error e →
      classifyError e = ErrorType.Transient →
      smartRetryGo op attempt remaining =
        ⟨Except.error e, remaining + 1, remaining⟩ := by
  intro remaining
  induction remaining with
  | zero =>
    intro attempt e _ herr hc
    rw [Nat.add_zero] at herr
    have hne : classifyError e ≠ ErrorType.Permanent := by
      rw [hc]
      exact fun h => ErrorType.noConfusion h
    exact smartRetryGo_stop op attempt e herr hne
  | succ r ih =>
    intro attempt e hfail herr hc
    obtain ⟨e0, he0, het0⟩ := hfail 0 (by omega)
    rw [Nat.add_zero] at he0
    have hne : classifyError e0 ≠ ErrorType.Permanent := by
      rw [het0]
      exact fun h => ErrorType.noConfusion h
    rw [smartRetryGo_cont op attempt r e0 he0 hne]
    have hrec := ih (attempt + 1) e
      (fun i hi => by
        have h := hfail (i + 1) (by omega)
        rwa [show attempt + (i + 1) = attempt + 1 + i by omega] at h)
      (by rwa [show attempt + (r + 1) = attempt + 1 + r by omega] at herr)
      hc
    rw [hrec]

/-- Claim C2: the smart retry wrapper invokes the operation at most
maxRetries + 1 times; the first success (after transient failures only)
short-circuits with exactly that many invocations; a Permanent failure is
propagated immediately with no further sleeps or attempts; and when every
attempt fails transiently, all maxRetries + 1 attempts run and the last
error is propagated. -/
theorem smart_retry_attempt_semantics {α : Type} (config : RetryConfig)
    (op : Nat → Except String α) :
    (smartRetryAsync config op).calls ≤ config.maxRetries + 1 ∧
    (∀ (k : Nat) (v : α), k ≤ config.maxRetries →
      (∀ i, i < k → ∃ e, op i = Except.error e ∧
        classifyError e = ErrorType.Transient) →
      op k = Except.ok v →
      smartRetryAsync config op = ⟨Except.ok v, k + 1, k⟩) ∧
    (∀ (k : Nat) (e : String), k ≤ config.maxRetries →
      (∀ i, i < k → ∃ e2, op i = Except.error e2 ∧
        classifyError e2 = ErrorType.Transient) →
      op k = Except.error e → classifyError e = ErrorType.Permanent →
      smartRetryAsync config op = ⟨Except.error e, k + 1, k⟩) ∧
    (∀ e : String,
      (∀ i, i < config.maxRetries → ∃ e2, op i = Except.error e2 ∧
        classifyError e2 = ErrorType.Transient) →
      op config.maxRetries = Except.error e →
      classifyError e = ErrorType.Transient →
      smartRetryAsync config op =
        ⟨Except.error e, config.maxRetries + 1, config.maxRetries⟩) := by
  refine ⟨smartRetryGo_calls_le op config.maxRetries 0, ?_, ?_, ?_⟩
  · intro k v hk hfail hok
    exact smartRetryGo_success op k config.maxRetries 0 v hk
      (by simpa using hfail) (by simpa using hok)
  · intro k e hk hfail herr hc
    exact smartRetryGo_permanent op k config.maxRetries 0 e hk
      (by simpa using hfail) (by simpa using herr) hc
  · intro e hfail herr hc
    exact smartRetryGo_exhaust op config.maxRetries 0 e
      (by simpa using hfail) (by simpa using herr) hc

/-- Witness for C2, at maxRetries = 2: an operation failing twice with
"timeout" then succeeding is invoked exactly 3 times and its value
returned; an operation always failing with "connection reset" is invoked
exactly 3 times and the final error propagated; an operation failing at
once with "file not found" (permanent) is invoked exactly once. -/
theorem smart_retry_attempt_semantics_witness :
    smartRetryAsync ⟨2, 1, 30, 2⟩
        (fun i => if i < 2 then Except.error "timeout" else Except.ok 42) =
      ⟨Except.ok 42, 3, 2⟩ ∧
    smartRetryAsync ⟨2, 1, 30, 2⟩
        (fun _ => (Except.error "connection reset" : Except String Nat)) =
      ⟨Except.error "connection reset", 3, 2⟩ ∧
    smartRetryAsync ⟨2, 1, 30, 2⟩
        (fun _ => (Except.error "file not found" : Except String Nat)) =
      ⟨Except.error "file not found", 1, 0⟩ :=
  ⟨(smart_retry_attempt_semantics ⟨2, 1, 30, 2⟩ _).2.1 2 42 (by decide)
      (fun i hi => ⟨"timeout", by simp [hi], by decide⟩) (by simp),
   (smart_retry_attempt_semantics ⟨2, 1, 30, 2⟩ _).2.2.2 "connection reset"
      (fun i _ => ⟨"connection reset", rfl, by decide⟩) rfl (by decide),
   (smart_retry_attempt_semantics ⟨2, 1, 30, 2⟩ _).2.2.1 0 "file not found"
      (Nat.zero_le _) (fun i hi => absurd hi (by omega)) rfl (by decide)⟩

/-! ## Claim C5 -/

/-- Claim C5: the batch scheduler returns exactly one terminal
ProcessingResult per book and never a scheduler-level exception
(`processBatch` is total into `List ProcessingResult`): however the task
completions interleave, the collected results are a permutation of the
per-book terminal results, one per input book; a successful retry returns
the processor's result; a book whose retries are exhausted (or that fails
permanently) yields the `failure()` result carrying the
"All retries failed" message; and a book's terminal result depends only on
that book's own outcomes, so one book's failure never perturbs its
siblings' results. -/
theorem batch_one_terminal_result_per_book (cfg : RetryConfig)
    (ops : Nat → Nat → Except String ProcessingResult)
    (books : List BookFolder) (order : List Nat)
    (hperm : order.Perm (List.range books.length)) :
    (processBatch cfg ops books order).length = books.length ∧
    (processBatch cfg ops books order).Perm
      ((List.range books.length).map (fun i =>
        bookTerminalResult cfg (ops i) (books.getD i (BookFolder.new [])))) ∧
    (∀ (i : Nat) (r : ProcessingResult),
      (smartRetryAsync cfg (ops i)).result = Except.ok r →
      bookTerminalResult cfg (ops i) (books.getD i (BookFolder.new [])) =
        r) ∧
    (∀ (i : Nat) (e : String),
      (smartRetryAsync cfg (ops i)).result = Except.error e →
      bookTerminalResult cfg (ops i) (books.getD i (BookFolder.new [])) =
        (ProcessingResult.new
          (books.getD i (BookFolder.new [])).name).failure
          ("All retries failed: " ++ e) 0) ∧
    (∀ (ops2 : Nat → Nat → Except String ProcessingResult) (j : Nat),
      ops2 j = ops j →
      bookTerminalResult cfg (ops2 j) (books.getD j (BookFolder.new [])) =
        bookTerminalResult cfg (ops j) (books.getD j (BookFolder.new []))) := by
  refine ⟨?_, ?_, ?_, ?_, ?_⟩
  · unfold processBatch
    rw [List.length_map, hperm.length_eq, List.length_range]
  · exact hperm.map _
  · intro i r h
    unfold bookTerminalResult
    rw [h]
  · intro i e h
    unfold bookTerminalResult
    rw [h]
  · intro ops2 j h
    rw [h]

/-- Witness for C5: a two-book batch, collected in reversed completion
order, where book 0 fails permanently ("corrupted") on its only attempt
and book 1 succeeds: two results, book 0's a `failure()`. -/
theorem batch_one_terminal_result_per_book_witness :
    (processBatch ⟨2, 1, 30, 2⟩
      (fun i _ => if i = 0 then Except.error "corrupted"
        else Except.ok (ProcessingResult.new "B2"))
      [BookFolder.new ["lib", "B1"], BookFolder.new ["lib", "B2"]]
      [1, 0]).length = 2 ∧
    bookTerminalResult ⟨2, 1, 30, 2⟩
      ((fun i _ => if i = 0 then Except.error "corrupted"
        else Except.ok (ProcessingResult.new "B2")) 0)
      ([BookFolder.new ["lib", "B1"],
        BookFolder.new ["lib", "B2"]].getD 0 (BookFolder.new [])) =
      (ProcessingResult.new "B1").failure
        "All retries failed: corrupted" 0 :=
  ⟨(batch_one_terminal_result_per_book ⟨2, 1, 30, 2⟩
      (fun i _ => if i = 0 then Except.error "corrupted"
        else Except.ok (ProcessingResult.new "B2"))
      [BookFolder.new ["lib", "B1"], BookFolder.new ["lib", "B2"]]
      [1, 0] (by decide)).1,
   (batch_one_terminal_result_per_book ⟨2, 1, 30, 2⟩
      (fun i _ => if i = 0 then Except.error "corrupted"
        else Except.ok (ProcessingResult.new "B2"))
      [BookFolder.new ["lib", "B1"], BookFolder.new ["lib", "B2"]]
      [1, 0] (by decide)).2.2.2.1 0 "corrupted" rfl⟩

/-! ## Claim C8 -/

/-- `find?` over `range' s n` returns the first index satisfying the
predicate: if everything in `[s, k)` fails the predicate and `k` (inside
the range) satisfies it, the result is `k`. -/
theorem range'_find?_first (p : Nat → Bool) :
    ∀ (n s k : Nat), s ≤ k → k < s + n →
      (∀ j, s ≤ j → j < k → p j = false) → p k = true →
      (List.range' s n).find? p = some k := by
  intro n
  induction n with
  | zero =>
    intro s k h1 h2 _ _
    exact absurd h2 (by omega)
  | succ m ih =>
    intro s k h1 h2 hbefore hk
    rw [show List.range' s (m + 1) = s :: List.range' (s + 1) m from
      List.range'_succ s m 1 ▸ rfl]
    rcases eq_or_lt_of_le h1 with rfl | hlt
    · rw [List.find?_cons_of_pos _ hk]
    · have hps : p s = false := hbefore s le_rfl hlt
      rw [List.find?_cons_of_neg _ (by simp [hps])]
      exact ih (s + 1) k (by omega) (by omega)
        (fun j hj1 hj2 => hbefore j (by omega) hj2) hk

/-- Claim C8: organize maps case D to a no-op `SkippedInvalid` with no
move; cases A and B target the to-convert root and case C the completed
(m4b) root; a book whose parent already equals the destination root is a
no-op `Skipped`; otherwise the folder is moved to the resolved
destination; name collisions are resolved by trying the suffixes `_2`,
`_3`, ... in order (a name taken twice resolves to `_3`), with the
dedicated "Could not resolve naming conflict" error once the 998 suffix
attempts are exhausted. -/
theorem organize_book_cases (org : Organizer) (fs : List String → Bool)
    (book : BookFolder) :
    (book.case = BookCase.D →
      organizeBook org fs book = Except.ok
        (⟨book.name, book.folderPath, none, OrganizeAction.skippedInvalid,
          true, none⟩, [])) ∧
    (book.case = BookCase.A ∨ book.case = BookCase.B →
      organizeTarget org book.case =
        some (org.convertFolder, OrganizeAction.movedToConvert)) ∧
    (book.case = BookCase.C →
      organizeTarget org book.case =
        some (org.m4bFolder, OrganizeAction.movedToM4B)) ∧
    (∀ (f : String) (a : OrganizeAction),
      organizeTarget org book.case = some (f, a) →
      book.folderPath.dropLast = org.root ++ [f] →
      organizeBook org fs book = Except.ok
        (⟨book.name, book.folderPath, none, OrganizeAction.skipped,
          true, none⟩, [])) ∧
    (∀ (f : String) (a : OrganizeAction) (leaf : String)
        (d : List String),
      organizeTarget org book.case = some (f, a) →
      book.folderPath.dropLast ≠ org.root ++ [f] →
      book.folderPath.getLast? = some leaf →
      resolveNamingConflict fs (org.root ++ [f] ++ [leaf]) =
        Except.ok d →
      organizeBook org fs book = Except.ok
        (⟨book.name, book.folderPath, some d, a, true, none⟩,
         if org.dryRun then [] else [(book.folderPath, d)])) ∧
    (∀ p : List String, fs p = false →
      resolveNamingConflict fs p = Except.ok p) ∧
    (∀ (parent : List String) (base : String) (k : Nat),
      fs (parent ++ [base]) = true → 2 ≤ k → k ≤ 999 →
      (∀ j, 2 ≤ j → j < k →
        fs (parent ++ [suffixedName base j]) = true) →
      fs (parent ++ [suffixedName base k]) = false →
      resolveNamingConflict fs (parent ++ [base]) =
        Except.ok (parent ++ [suffixedName base k])) ∧
    (∀ (parent : List String) (base : String),
      fs (parent ++ [base]) = true →
      (∀ j, 2 ≤ j → j ≤ 999 →
        fs (parent ++ [suffixedName base j]) = true) →
      resolveNamingConflict fs (parent ++ [base]) =
        Except.error "Could not resolve naming conflict") := by
  refine ⟨?_, ?_, ?_, ?_, ?_, ?_, ?_, ?_⟩
  · intro h
    unfold organizeBook
    rw [h]
    rfl
  · rintro (h | h) <;> rw [h] <;> rfl
  · intro h
    rw [h]
    rfl
  · intro f a htarget heq
    unfold organizeBook
    rw [htarget]
    dsimp only
    rw [if_pos heq]
  · intro f a leaf d htarget hne hleaf hresolve
    unfold organizeBook
    rw [htarget]
    dsimp only
    rw [if_neg hne, hleaf]
    dsimp only
    rw [hresolve]
  · intro p h
    unfold resolveNamingConflict
    rw [if_pos h]
  · intro parent base k hfs h2 h999 hbefore hfree
    unfold resolveNamingConflict
    rw [if_neg (by simp [hfs]), List.getLast?_concat]
    dsimp only
    rw [List.dropLast_concat]
    rw [range'_find?_first (fun i => !fs (parent ++ [suffixedName base i]))
      998 2 k h2 (by omega)
      (fun j hj1 hj2 => by simp [hbefore j hj1 hj2])
      (by simp [hfree])]
  · intro parent base hfs hall
    unfold resolveNamingConflict
    rw [if_neg (by simp [hfs]), List.getLast?_concat]
    dsimp only
    rw [List.dropLast_concat]
    rw [List.find?_eq_none.mpr (fun x hx => by
      have hmem := List.mem_range'_1.mp hx
      simp [hall x (by omega) (by omega)])]

/-- Witness for C8: with root "lib", convert folder "To_Convert" and a
filesystem already containing "Book" and "Book_2" at the destination, a
case-A book at ["in", "Book"] is moved to the `_3`-suffixed
destination. -/
theorem organize_book_cases_witness :
    organizeBook ⟨["lib"], "M4B", "To_Convert", false⟩
      (fun p => p == ["lib", "To_Convert", "Book"]
        || p == ["lib", "To_Convert", "Book_2"])
      { folderPath := ["in", "Book"], name := "Book", case := BookCase.A
        tracks := [], mp3Files := [], m4bFiles := []
        coverFile := none, cueFile := none } =
      Except.ok
        (⟨"Book", ["in", "Book"], some ["lib", "To_Convert", "Book_3"],
          OrganizeAction.movedToConvert, true, none⟩,
         [(["in", "Book"], ["lib", "To_Convert", "Book_3"])]) := by
  have h := organize_book_cases ⟨["lib"], "M4B", "To_Convert", false⟩
    (fun p => p == ["lib", "To_Convert", "Book"]
      || p == ["lib", "To_Convert", "Book_2"])
    { folderPath := ["in", "Book"], name := "Book", case := BookCase.A
      tracks := [], mp3Files := [], m4bFiles := []
      coverFile := none, cueFile := none }
  have hres := h.2.2.2.2.2.2.1 ["lib", "To_Convert"] "Book" 3 (by decide)
    (by omega) (by omega)
    (fun j hj1 hj2 => by
      have : j = 2 := by omega
      subst this
      decide)
    (by decide)
  exact h.2.2.2.2.1 "To_Convert" OrganizeAction.movedToConvert "Book"
    ["lib", "To_Convert", "Book_3"] (by decide) (by decide) (by decide)
    hres

/-! ## Claim C9 -/

/-- Inductive invariant of the PARALLEL branch: the running count never
exceeds the semaphore size, the join counter never exceeds the finished
count, the task counts always sum to the track count, and the
concatenation starts only once the join loop has awaited every task. -/
theorem parState_invariant (limit total : Nat) :
    ∀ s, ParReachable limit total s →
      s.running ≤ limit ∧ s.joined ≤ s.finished ∧
      s.notStarted + s.running + s.finished = total ∧
      (s.concatStarted = true → s.joined = total) := by
  intro s h
  induction h with
  | refl =>
    refine ⟨?_, ?_, ?_, ?_⟩ <;> simp [ParState.init]
  | tail _ hstep ih =>
    cases hstep with
    | startTask ns r j f c hr =>
      obtain ⟨i1, i2, i3, i4⟩ := ih
      dsimp only at i1 i2 i3 i4 ⊢
      exact ⟨by omega, i2, by omega, i4⟩
    | finishTask ns r j f c =>
      obtain ⟨i1, i2, i3, i4⟩ := ih
      dsimp only at i1 i2 i3 i4 ⊢
      refine ⟨by omega, by omega, by omega, fun hc => i4 hc⟩
    | joinTask ns r j f c hj =>
      obtain ⟨i1, i2, i3, i4⟩ := ih
      dsimp only at i1 i2 i3 i4 ⊢
      refine ⟨i1, by omega, i3, fun hc => ?_⟩
      have := i4 hc
      omega
    | startConcat ns r j f hj =>
      obtain ⟨i1, i2, i3, i4⟩ := ih
      dsimp only at i1 i2 i3 i4 ⊢
      exact ⟨i1, i2, i3, fun _ => hj⟩

/-- Claim C9: in every reachable state of a PARALLEL-strategy book with
`trackCount` tracks, the number of concurrently running per-track encodes
never exceeds `min(maxConcurrentFilesPerBook, trackCount)` (the semaphore
size `effective_limit`), and once the final copy-mode concatenation has
started, every per-track encode has finished. -/
theorem parallel_encode_bounded (maxConcurrentFiles trackCount : Nat)
    (s : ParState)
    (h : ParReachable (effectiveLimit maxConcurrentFiles trackCount)
      trackCount s) :
    s.running ≤ Nat.min maxConcurrentFiles trackCount ∧
    (s.concatStarted = true → s.finished = trackCount) := by
  obtain ⟨i1, i2, i3, i4⟩ :=
    parState_invariant (effectiveLimit maxConcurrentFiles trackCount)
      trackCount s h
  refine ⟨i1, fun hc => ?_⟩
  have := i4 hc
  omega

/-- Witness for C9: a 4-track book with maxConcurrentFilesPerBook = 2,
after two encode tasks have acquired permits (a reachable state saturating
the semaphore), shows running = 2 ≤ min 2 4 and an unstarted
concatenation. -/
theorem parallel_encode_bounded_witness :
    (⟨2, 2, 0, 0, false⟩ : ParState).running ≤ Nat.min 2 4 ∧
    ((⟨2, 2, 0, 0, false⟩ : ParState).concatStarted = true →
      (⟨2, 2, 0, 0, false⟩ : ParState).finished = 4) :=
  parallel_encode_bounded 2 4 ⟨2, 2, 0, 0, false⟩
    (Relation.ReflTransGen.tail
      (Relation.ReflTransGen.tail Relation.ReflTransGen.refl
        (ParStep.startTask 3 0 0 0 false (by decide)))
      (ParStep.startTask 2 1 0 0 false (by decide)))

end AudiobookForge
